import Mathlib

/-!
Verification development for the transcript-video-worker service
(`src/transcript-video-worker/src/{consumer,service,repository,dto}.py`).

The Python source is shallowly embedded: every loop becomes a fuel-bounded
structural recursion whose fuel is provably sufficient under the loop's own
timeout, wall-clock time is idealised as `pollCount * pollInterval` (polls and
network calls take zero time, each sleep takes exactly one interval), and the
external collaborators (job table, object storage, speech provider) are
parameters of the embedding.
-/

namespace TranscriptWorker

/-! ## String primitives

Python's `str.endswith`, `str.startswith` and `str.strip` are embedded over
the character list of a `String` so that every definition below evaluates by
kernel reduction on concrete inputs. -/

/-- Character-by-character equality of two character lists. -/
def charsEq : List Char → List Char → Bool
  | [], [] => true
  | c :: cs, d :: ds => c = d && charsEq cs ds
  | _, _ => false

/-- Python `s.endswith(t)`. -/
def strEndsWith (s t : String) : Bool :=
  decide (t.data.length ≤ s.data.length) &&
    charsEq (s.data.drop (s.data.length - t.data.length)) t.data

/-- Python `s.startswith(t)`. -/
def strStartsWith (s t : String) : Bool :=
  charsEq (s.data.take t.data.length) t.data

/-- Python `s.strip()`: drop whitespace from both ends. -/
def strTrim (s : String) : String :=
  ⟨((s.data.dropWhile Char.isWhitespace).reverse.dropWhile Char.isWhitespace).reverse⟩

/-- Decidable equality on `Except`, used to evaluate concrete runs. -/
instance exceptDecEq {ε α : Type} [DecidableEq ε] [DecidableEq α] :
    DecidableEq (Except ε α)
  | Except.error e, Except.error f =>
    if h : e = f then Decidable.isTrue (by rw [h])
    else Decidable.isFalse (by intro hh; cases hh; exact h rfl)
  | Except.error _, Except.ok _ => Decidable.isFalse (by intro h; cases h)
  | Except.ok _, Except.error _ => Decidable.isFalse (by intro h; cases h)
  | Except.ok x, Except.ok y =>
    if h : x = y then Decidable.isTrue (by rw [h])
    else Decidable.isFalse (by intro hh; cases hh; exact h rfl)

/-! ## Data model (`dto.py`, `repository.py`) -/

/-- `TranscriptionMessage` from `dto.py`: one unit of work from the broker. -/
structure TranscriptionMessage where
  jobId : String
  objectPath : String
  language : Option String
deriving DecidableEq

/-- A row of the `jobs` table as returned by `JobRepository.find_job_by_id`
(`repository.py` lines 25-43): `SELECT id, entity_id, status FROM jobs`.
The status column is free text; the worker only compares it against the
literals `"COMPLETED"` and `"FAILED"`. -/
structure Job where
  id : String
  entity_id : String
  status : String
deriving DecidableEq

/-! ## Consumer-side processing of one delivery (`consumer.py`)

`TranscriptionConsumer._process_message` (lines 160-192) wraps
`self._service.process(msg)` in `backoff.on_exception(backoff.expo, Exception,
max_tries=5, max_time=30)`.  We abstract one delivery's successive
`process` invocations as `outcomes : Nat → Bool` (`true` = the invocation
returns normally, `false` = it raises); `backoff` stops at the first success
and otherwise makes up to `max_tries` calls.  The `max_time=30` cap can only
lower the number of calls further, so the call counts below are exact for fast
attempts and upper bounds in general. -/

/-- Number of tries `backoff.on_exception` makes on `handle`, starting at
attempt index `i` with `tries` tries remaining. -/
def backoffCallsFrom (outcomes : Nat → Bool) : Nat → Nat → Nat
  | 0, _ => 0
  | tries + 1, i => if outcomes i then 1 else 1 + backoffCallsFrom outcomes tries (i + 1)

/-- Whether the retried `handle` eventually returns normally (otherwise the
final exception propagates out of the `backoff` wrapper). -/
def backoffSucceedsFrom (outcomes : Nat → Bool) : Nat → Nat → Bool
  | 0, _ => false
  | tries + 1, i => if outcomes i then true else backoffSucceedsFrom outcomes tries (i + 1)

/-- `max_tries=5` on the `handle` wrapper in `_process_message`. -/
def MAX_TRIES : Nat := 5

/-- How many times the backoff wrapper invokes `handle` — one
`service.process` call each (`consumer.py` lines 176-185) — for a delivery
whose in-pool parse/validation has already succeeded.  `_process_message`
first re-parses the body and constructs the pydantic `TranscriptionMessage`
(lines 163-174) inside the same `try`; when that step raises, `handle` is
never defined or called — that path is modelled by
`processMessageInvocations` below. -/
def processMessageCalls (outcomes : Nat → Bool) : Nat :=
  backoffCallsFrom outcomes MAX_TRIES 0

/-- The boolean success `_process_message` reports for a delivery whose
in-pool parse/validation succeeded: `(True, job_id)` when some retried
invocation returned normally, `(False, job_id)` when the final retry raised
(caught at lines 187-192). -/
def processMessageResult (outcomes : Nat → Bool) : Bool :=
  backoffSucceedsFrom outcomes MAX_TRIES 0

/-- Number of `service.process` invocations `_process_message` performs for
one pool-dispatched delivery.  `msgValid` is whether its own `json.loads` and
`TranscriptionMessage` construction (`consumer.py` lines 163-174) succeed:
they run before the backoff-wrapped `handle`, so a delivery can reach the
pool (its envelope passed `on_message`'s minimal parse, e.g. a payload whose
`objectPath` is not a string) and still invoke `process` zero times. -/
def processMessageInvocations (msgValid : Bool) (outcomes : Nat → Bool) : Nat :=
  if msgValid then processMessageCalls outcomes else 0

/-- The boolean success `_process_message` returns for one pool-dispatched
delivery: `False` when its parse/validation raises (the `except` at lines
187-192 catches it before `handle` ever runs), otherwise whether some
retried invocation returned normally. -/
def processMessageSuccess (msgValid : Bool) (outcomes : Nat → Bool) : Bool :=
  if msgValid then processMessageResult outcomes else false

/-- Terminal broker disposition of a delivery tag: `basic_ack` or
`basic_nack(requeue=False)` (`consumer.py` lines 204-210 and 243-246). -/
inductive Disposition
  | ack
  | nackNoRequeue
deriving DecidableEq

/-- Dispositions issued for one delivery, in issue order, as pairs
`(delivery_tag, disposition)`.  Mirrors `on_message` (`consumer.py` lines
230-271) composed with `on_done` and `_process_ack_queue` (lines 194-214):
a parse failure is nacked immediately without reaching the pool; a valid
message is submitted to the pool, whose completion callback enqueues exactly
one `AckRequest`, drained into exactly one `basic_ack`/`basic_nack` on the
connection thread. -/
def onMessageDispositions (tag : Nat) (parseOk : Bool) (outcomes : Nat → Bool) :
    List (Nat × Disposition) :=
  if parseOk then
    [(tag, if processMessageResult outcomes then Disposition.ack else Disposition.nackNoRequeue)]
  else
    [(tag, Disposition.nackNoRequeue)]

/-! ## Job wait (`service.py`, `_poll_job_status`, lines 81-116) -/

/-- The three distinct exception kinds `_poll_job_status` can raise:
`TimeoutError` (line 91), `ValueError` for a missing job (line 98), and a
plain `Exception` for a `FAILED` job (line 114). -/
inductive JobWaitError
  | timeout
  | notFound
  | jobFailed
deriving DecidableEq

/-- One fuel-bounded unfolding of the `while True` loop of `_poll_job_status`.
`n` is the current iteration index, so the idealised elapsed time at the
timeout check is `n * interval` (`n` sleeps of `interval` seconds have
happened).  Returns the result together with the number of `time.sleep`
calls performed.  Fuel `timeout / interval + 2` is enough whenever
`1 ≤ interval`, so the fuel-out branch is unreachable in the theorems below. -/
def pollJobAux (resp : Nat → Option Job) (interval timeout : Nat) :
    Nat → Nat → Except JobWaitError Job × Nat
  | 0, _ => (Except.error JobWaitError.timeout, 0)
  | fuel + 1, n =>
    if n * interval > timeout then (Except.error JobWaitError.timeout, 0)
    else
      match resp n with
      | none => (Except.error JobWaitError.notFound, 0)
      | some job =>
        if job.status = "COMPLETED" then (Except.ok job, 0)
        else if job.status = "FAILED" then (Except.error JobWaitError.jobFailed, 0)
        else
          let res := pollJobAux resp interval timeout fuel (n + 1)
          (res.1, res.2 + 1)

/-- `TranscriptionService._poll_job_status`: result and number of sleeps.
`resp n` is what `JobRepository.find_job_by_id` returns on the `n`-th poll. -/
def pollJobStatus (resp : Nat → Option Job) (interval timeout : Nat) :
    Except JobWaitError Job × Nat :=
  pollJobAux resp interval timeout (timeout / interval + 2) 0

/-! ## Media locator (`service.py`, `_find_audio_file`, lines 118-159) -/

/-- Audio file extensions accepted by the standalone-audio branch
(`service.py` line 135). -/
def AUDIO_EXTS : List String := [".m4a", ".mp3", ".wav", ".aac", ".ogg"]

/-- Whether an object name ends with one of the standalone audio extensions. -/
def audioExtAny (o : String) : Bool :=
  AUDIO_EXTS.any (fun e => strEndsWith o e)

/-- The object-storage listing as seen by `_find_audio_file`: either some
exception was raised while listing (connection failure etc.), or the bucket's
object names in listing order. -/
inductive Storage
  | transportError
  | ok (objects : List String)

/-- One iteration of the `for obj in objects` loop of `_find_audio_file`
(lines 131-136): the accumulator is `(audio_m3u8, audio_files)`; a name
ending in `audio.m3u8` overwrites `audio_m3u8` (so the last such name wins),
otherwise a name with a standalone audio extension is appended to
`audio_files`. -/
def scanStep (acc : Option String × List String) (o : String) :
    Option String × List String :=
  if strEndsWith o "audio.m3u8" then (some o, acc.2)
  else if audioExtAny o then (acc.1, acc.2 ++ [o])
  else acc

/-- The whole scan loop over the listed objects. -/
def scanObjects (listed : List String) : Option String × List String :=
  listed.foldl scanStep (none, [])

/-- The recursive listing under the per-entity video prefix
`lessons/{entityId}/videos/` (`service.py` lines 122-125), in bucket order. -/
def videoObjects (objects : List String) (entityId : String) : List String :=
  objects.filter (fun o => strStartsWith o ("lessons/" ++ entityId ++ "/videos/"))

/-- `TranscriptionService._find_audio_file`.  `videoDir` is carried but never
used, as in the source.  Any exception thrown while listing yields `none`
(the outer `except Exception` at lines 157-159); `stat_object` on the master
playlist is membership of that exact key in the bucket. -/
def findAudioFile (storage : Storage) (entityId : String) (_videoDir : String) :
    Option String :=
  match storage with
  | Storage.transportError => none
  | Storage.ok objects =>
    let scan := scanObjects (videoObjects objects entityId)
    match scan.1 with
    | some a => some a
    | none =>
      match scan.2 with
      | a :: _ => some a
      | [] =>
        let master := ("lessons/" ++ entityId ++ "/videos/") ++ "master.m3u8"
        if objects.contains master then some master else none

/-! ## Transcription submission and poll (`service.py`, lines 289-436) -/

/-- AssemblyAI transcript status (`aai.TranscriptStatus`). -/
inductive TranscriptStatus
  | queued
  | processing
  | completed
  | error
deriving DecidableEq

/-- The provider's transcript object as the code reads it: status,
`language_code`, `audio_duration` (the source's own comment at line 435 reads
it as milliseconds), `text`, and the `"en"` entry of `translated_texts` when
that dict is present and non-empty (otherwise `none`). -/
structure ProviderResp where
  status : TranscriptStatus
  language_code : Option String
  audio_duration : Option Nat
  text : Option String
  translated_en : Option String
deriving DecidableEq

/-- Failure kinds that `process` can propagate, one per distinct raise site. -/
inductive ProcErr
  | jobWait (e : JobWaitError)
  | noAudioFound
  | audioMissingOrEmpty
  | transcribeCallFailed
  | transcriptionTimeout
  | transcriptionError
  | uploadFailed
deriving DecidableEq

/-- The transcription poll loop (`service.py` lines 333-431): while the
status is `queued` or `processing`, check the elapsed time against
`poll_timeout` (raise `TimeoutError` at line 338), sleep, and re-fetch.
`resp 0` is the submission's own response; `resp k` for `k ≥ 1` is the `k`-th
`Transcript.get_by_id` result.  After the loop, status `error` raises
(line 431); `completed` is the result. -/
def transcribePollAux (resp : Nat → ProviderResp) (interval timeout : Nat) :
    Nat → Nat → Except ProcErr ProviderResp
  | 0, _ => Except.error ProcErr.transcriptionTimeout
  | fuel + 1, k =>
    let r := resp k
    if r.status = TranscriptStatus.queued ∨ r.status = TranscriptStatus.processing then
      if k * interval > timeout then Except.error ProcErr.transcriptionTimeout
      else transcribePollAux resp interval timeout fuel (k + 1)
    else if r.status = TranscriptStatus.error then Except.error ProcErr.transcriptionError
    else Except.ok r

/-- The transcription poll with its sufficient fuel. -/
def transcribePoll (resp : Nat → ProviderResp) (interval timeout : Nat) :
    Except ProcErr ProviderResp :=
  transcribePollAux resp interval timeout (timeout / interval + 2) 0

/-! ## Translation resolution (`service.py`, lines 438-630) -/

/-- Python's `s.strip() or None` normalisation used for translated texts
(lines 443 and 613): strip whitespace, and turn the empty result into `None`. -/
def normText : Option String → Option String
  | none => none
  | some t => if strTrim t = "" then none else some (strTrim t)

/-- One `Transcript.get_by_id` response as read by the translation poll loop:
transcript status, the `speech_understanding` field (`none` when absent;
`some ts` when present, with `ts` the optional `response.translation.status`
string), and the `"en"` entry of `translated_texts` when present. -/
structure TransPollResp where
  status : TranscriptStatus
  su : Option (Option String)
  translated_en : Option String
deriving DecidableEq

/-- The hardcoded 60-second grace period after the base transcription has
completed (`service.py` line 584). -/
def GRACE_SECONDS : Nat := 60

/-- The out-of-band translation poll loop (`service.py` lines 494-627),
returning the obtained translation (or `none`) and the number of transcript
fetches performed.  Per iteration `n` (idealised elapsed `n * interval`):
a lapse of `poll_timeout` raises `TimeoutError` (line 499, swallowed by the
enclosing `except` at 629-630, hence `none` here); otherwise fetch; if the
transcript is `completed`, more than `GRACE_SECONDS` elapsed, and there is no
`speech_understanding` response yet, stop and fall back (lines 581-589);
a translation status of `failed`/`error` stops with no translation (606-608);
`success` stops when a non-empty English text is present (609-621); anything
else sleeps and continues. -/
def translatePollAux (resp : Nat → TransPollResp) (interval timeout : Nat) :
    Nat → Nat → Option String × Nat
  | 0, _ => (none, 0)
  | fuel + 1, n =>
    if n * interval > timeout then (none, 0)
    else
      let r := resp n
      if r.status = TranscriptStatus.completed ∧ n * interval > GRACE_SECONDS ∧ r.su = none then
        (none, 1)
      else
        match r.su with
        | some tstat =>
          if tstat = some "failed" ∨ tstat = some "error" then (none, 1)
          else if tstat = some "success" then
            match normText r.translated_en with
            | some t => (some t, 1)
            | none =>
              let res := translatePollAux resp interval timeout fuel (n + 1)
              (res.1, res.2 + 1)
          else
            let res := translatePollAux resp interval timeout fuel (n + 1)
            (res.1, res.2 + 1)
        | none =>
          let res := translatePollAux resp interval timeout fuel (n + 1)
          (res.1, res.2 + 1)

/-- Translation resolution (`service.py` lines 438-630): take the inline
`translated_texts["en"]` when non-empty after stripping; otherwise, when a
detected language is present (non-empty) and differs from `"en"`, issue the
out-of-band translation request (`requestOk` = the retried POST at lines
479-491 succeeded; its failure is swallowed by the `except` at 629-630) and
run the translation poll loop. -/
def resolveTranslation (inlineEn : Option String) (detectedLang : Option String)
    (requestOk : Bool) (resp : Nat → TransPollResp) (interval timeout : Nat) :
    Option String :=
  match normText inlineEn with
  | some t => some t
  | none =>
    match detectedLang with
    | none => none
    | some lang =>
      if lang = "" then none
      else if lang = "en" then none
      else if requestOk then
        (translatePollAux resp interval timeout (timeout / interval + 2) 0).1
      else none

/-! ## Payload assembly and persistence (`service.py`, lines 433-436 and 653-715) -/

/-- The persisted transcript JSON (`service.py` lines 656-666). -/
structure TranscriptPayload where
  lessonId : String
  jobId : String
  audioPath : String
  model : String
  language : Option String
  createdAt : String
  version : Nat
  duration : ℚ
  text : String
deriving DecidableEq

/-- `duration = result.audio_duration / 1000.0 if result.audio_duration else 0`
(line 435): the provider's reported value (read as milliseconds by the
source's comment) converted to seconds; Python truthiness sends both `None`
and `0` to `0`. -/
def durationOf : Option Nat → ℚ
  | none => 0
  | some ms => if ms = 0 then 0 else (ms : ℚ) / 1000

/-- `original_text = result.text.strip() if result.text else ""` (line 436). -/
def originalTextOf (r : ProviderResp) : String :=
  match r.text with
  | some t => strTrim t
  | none => ""

/-- Observable side effects of one `process` call, in order. -/
inductive Event
  | listObjects
  | download
  | providerSubmit
  | upload
  | localWrite
deriving DecidableEq

/-- Upload of the durable copy to object storage followed by the local backup
write (`service.py` lines 668-715).  The MinIO `put_object` failure is
re-raised (lines 689-700); the local backup write is wrapped in
`try`/`except` that only logs a warning (lines 703-715), so its outcome
(`localOk`) does not influence the result at all. -/
def persistPayload (uploadOk _localOk : Bool) : Except ProcErr Unit × List Event :=
  if uploadOk then (Except.ok (), [Event.upload, Event.localWrite])
  else (Except.error ProcErr.uploadFailed, [Event.upload])

/-- `os.path.dirname` for slash-separated paths (`service.py` line 257). -/
def dirName (p : String) : String :=
  String.intercalate "/" ((p.splitOn "/").dropLast)

/-- The external world one `process` call interacts with.  `pollInterval` and
`pollTimeout` are shared by the transcription and translation polls, exactly
as `self._poll_interval` / `self._poll_timeout` are in the source.
`audioOk` abstracts the download/extraction producing an existing non-empty
local file (lines 264-287); `transcribeOk` abstracts the retried submission
call `_transcribe_audio` (lines 320-330) returning at all. -/
structure Env where
  jobResponses : Nat → Option Job
  jobInterval : Nat
  jobTimeout : Nat
  storage : Storage
  audioOk : Bool
  transcribeOk : Bool
  provResponses : Nat → ProviderResp
  pollInterval : Nat
  pollTimeout : Nat
  translationRequestOk : Bool
  transResponses : Nat → TransPollResp
  uploadOk : Bool
  localWriteOk : Bool
  now : String

/-- The transcription phase: submission (whose failure after internal retries
propagates out of `process` via the re-raise at lines 644-651) followed by
the status poll loop. -/
def transcribeResult (env : Env) : Except ProcErr ProviderResp :=
  if env.transcribeOk then transcribePoll env.provResponses env.pollInterval env.pollTimeout
  else Except.error ProcErr.transcribeCallFailed

/-- The translation obtained for a given transcription result under `env`. -/
def envTranslated (env : Env) (r : ProviderResp) : Option String :=
  resolveTranslation r.translated_en r.language_code env.translationRequestOk
    env.transResponses env.pollInterval env.pollTimeout

/-- `TranscriptPayload` assembly (lines 653-666): `text` is the translation
when obtained, else the original text. -/
def buildPayload (msg : TranscriptionMessage) (env : Env)
    (entityId audioPath : String) (r : ProviderResp) : TranscriptPayload :=
  { lessonId := entityId
    jobId := msg.jobId
    audioPath := audioPath
    model := "assemblyai"
    language := r.language_code
    createdAt := env.now
    version := 1
    duration := durationOf r.audio_duration
    text := (envTranslated env r).getD (originalTextOf r) }

/-- `TranscriptionService.process` (`service.py` lines 246-725): job wait,
audio resolution (entity id taken from the job row, line 253), download or
extraction, transcription, translation resolution, assembly, persistence.
Returns the outcome together with the ordered trace of external effects. -/
def process (msg : TranscriptionMessage) (env : Env) :
    Except ProcErr TranscriptPayload × List Event :=
  match (pollJobStatus env.jobResponses env.jobInterval env.jobTimeout).1 with
  | Except.error e => (Except.error (ProcErr.jobWait e), [])
  | Except.ok job =>
    match findAudioFile env.storage job.entity_id (dirName msg.objectPath) with
    | none => (Except.error ProcErr.noAudioFound, [Event.listObjects])
    | some audioPath =>
      if env.audioOk then
        match transcribeResult env with
        | Except.error e =>
          (Except.error e, [Event.listObjects, Event.download, Event.providerSubmit])
        | Except.ok r =>
          match persistPayload env.uploadOk env.localWriteOk with
          | (Except.error e, pevs) =>
            (Except.error e,
              [Event.listObjects, Event.download, Event.providerSubmit] ++ pevs)
          | (Except.ok _, pevs) =>
            (Except.ok (buildPayload msg env job.entity_id audioPath r),
              [Event.listObjects, Event.download, Event.providerSubmit] ++ pevs)
      else (Except.error ProcErr.audioMissingOrEmpty, [Event.listObjects, Event.download])

/-! ## Concrete fixtures used to evaluate the embedding on closed runs -/

/-- The concrete message of the spec's end-to-end scenario. -/
def wMsg : TranscriptionMessage := ⟨"abc-123", "lessons/E1/videos/123-video.mp4", none⟩

/-- A completed provider response with Vietnamese text and an inline English
translation. -/
def wProv : ProviderResp :=
  ⟨TranscriptStatus.completed, some "vi", some 2000, some " xin chao ", some " hello "⟩

/-- An environment in which every stage of `process` succeeds. -/
def wEnv : Env :=
  { jobResponses := fun _ => some ⟨"abc-123", "E1", "COMPLETED"⟩
    jobInterval := 5
    jobTimeout := 10
    storage := Storage.ok
      ["lessons/E1/videos/123-video.mp4", "lessons/E1/videos/audio.m3u8"]
    audioOk := true
    transcribeOk := true
    provResponses := fun _ => wProv
    pollInterval := 5
    pollTimeout := 120
    translationRequestOk := true
    transResponses := fun _ => ⟨TranscriptStatus.completed, none, none⟩
    uploadOk := true
    localWriteOk := true
    now := "2026-01-01T00:00:00+00:00" }

/-- The same provider response with no inline translation (the degraded
scenario of the spec). -/
def wProvNT : ProviderResp := { wProv with translated_en := none }

/-- The all-success environment whose provider returns no inline translation
and whose translation sub-poll never sees a speech-understanding response. -/
def wEnvNT : Env := { wEnv with provResponses := fun _ => wProvNT }

/-! ## Lemmas about the consumer's internal retry -/

theorem backoffCallsFrom_le (outcomes : Nat → Bool) :
    ∀ tries i, backoffCallsFrom outcomes tries i ≤ tries := by
  intro tries
  induction tries with
  | zero => intro i; simp [backoffCallsFrom]
  | succ t ih =>
    intro i
    simp only [backoffCallsFrom]
    split
    · omega
    · have := ih (i + 1); omega

theorem backoffCallsFrom_pos (outcomes : Nat → Bool) :
    ∀ tries i, 1 ≤ tries → 1 ≤ backoffCallsFrom outcomes tries i := by
  intro tries i htries
  cases tries with
  | zero => omega
  | succ t =>
    simp only [backoffCallsFrom]
    split
    · omega
    · omega

theorem backoffCallsFrom_before_false (outcomes : Nat → Bool) :
    ∀ tries i j, j + 1 < backoffCallsFrom outcomes tries i → outcomes (i + j) = false := by
  intro tries
  induction tries with
  | zero => intro i j h; simp [backoffCallsFrom] at h
  | succ t ih =>
    intro i j h
    simp only [backoffCallsFrom] at h
    by_cases ho : outcomes i = true
    · rw [if_pos ho] at h; omega
    · rw [if_neg ho] at h
      cases j with
      | zero => simpa using ho
      | succ j' =>
        have hrec := ih (i + 1) j' (by omega)
        have heq : i + 1 + j' = i + (j' + 1) := by omega
        rwa [heq] at hrec

theorem backoffSucceedsFrom_eq (outcomes : Nat → Bool) :
    ∀ tries i, 1 ≤ tries →
      backoffSucceedsFrom outcomes tries i
        = outcomes (i + (backoffCallsFrom outcomes tries i - 1)) := by
  intro tries
  induction tries with
  | zero => intro i h; omega
  | succ t ih =>
    intro i _
    simp only [backoffSucceedsFrom, backoffCallsFrom]
    by_cases ho : outcomes i = true
    · rw [if_pos ho, if_pos ho]
      simp [ho]
    · rw [if_neg ho, if_neg ho]
      rcases Nat.eq_zero_or_pos t with h0 | hp
      · subst h0
        simp only [backoffSucceedsFrom, backoffCallsFrom]
        simpa using ho
      · rw [ih (i + 1) hp]
        congr 1
        have h1 : 1 ≤ backoffCallsFrom outcomes t (i + 1) :=
          backoffCallsFrom_pos outcomes t (i + 1) hp
        omega

/-! ## C1 -/

/-- C1 (claim as stated is FALSE): the claim says `process(message)` is called
at most once per delivery, with retries only via broker re-delivery after a
nack.  Counterexample: a delivery that parses and validates, whose first
`process` invocation raises and whose second returns normally.  The worker
itself invokes `process` twice (the `backoff` wrapper in `_process_message`),
reports success, and the delivery's single disposition is an ack — so no
nack and no broker re-delivery were involved in the second invocation. -/
theorem c1_process_at_most_once_counterexample :
    processMessageInvocations true (fun i => decide (0 < i)) = 2 ∧
    processMessageSuccess true (fun i => decide (0 < i)) = true ∧
    onMessageDispositions 1 true (fun i => decide (0 < i))
      = [(1, Disposition.ack)] := by
  refine ⟨by decide, by decide, by decide⟩

/-- C1 (amended): per delivery dispatched to the worker pool, the worker
invokes `process` at most `5` times (the `max_tries=5` bound of the internal
`backoff` retry in `_process_message`; the additional `max_time=30` cap can
only lower the count) — zero times when `_process_message`'s own
parse/validation raises before `handle`, and at least once when it succeeds;
every invocation before the last one raised; and the success the worker
reports — which alone decides ack versus nack, hence whether the broker ever
re-delivers — holds exactly when validation passed and the last invocation
returned normally. -/
theorem c1_process_call_bounds (msgValid : Bool) (outcomes : Nat → Bool) :
    processMessageInvocations msgValid outcomes ≤ 5 ∧
    (msgValid = false → processMessageInvocations msgValid outcomes = 0) ∧
    (msgValid = true → 1 ≤ processMessageInvocations msgValid outcomes) ∧
    (∀ i, i + 1 < processMessageInvocations msgValid outcomes →
      outcomes i = false) ∧
    (processMessageSuccess msgValid outcomes = true ↔
      msgValid = true ∧
        outcomes (processMessageInvocations msgValid outcomes - 1) = true) := by
  cases msgValid with
  | false =>
    refine ⟨by simp [processMessageInvocations], fun _ => rfl, by simp, ?_, ?_⟩
    · intro i h
      simp [processMessageInvocations] at h
    · simp [processMessageSuccess]
  | true =>
    have hle := backoffCallsFrom_le outcomes MAX_TRIES 0
    have hpos := backoffCallsFrom_pos outcomes MAX_TRIES 0 (by decide)
    have hres : processMessageResult outcomes
        = outcomes (processMessageCalls outcomes - 1) := by
      have heq := backoffSucceedsFrom_eq outcomes MAX_TRIES 0 (by decide)
      simpa using heq
    refine ⟨?_, by simp, fun _ => ?_, ?_, ?_⟩
    · simpa [processMessageInvocations, processMessageCalls] using hle
    · simpa [processMessageInvocations, processMessageCalls] using hpos
    · intro i h
      have h' : i + 1 < processMessageCalls outcomes := by
        simpa [processMessageInvocations] using h
      have hbf := backoffCallsFrom_before_false outcomes MAX_TRIES 0 i h'
      simpa using hbf
    · simp [processMessageSuccess, processMessageInvocations, hres]

/-- C1 witness: a validated delivery whose first two invocations raise and
whose third succeeds makes 3 calls (first raised, within the bound of 5),
while a pool-dispatched delivery failing in-pool validation makes 0 calls. -/
theorem c1_process_call_bounds_witness :
    processMessageInvocations true (fun i => decide (1 < i)) ≤ 5 ∧
    1 ≤ processMessageInvocations true (fun i => decide (1 < i)) ∧
    (fun i => decide (1 < i)) 0 = false ∧
    processMessageInvocations false (fun i => decide (1 < i)) = 0 := by
  have h1 := c1_process_call_bounds true (fun i => decide (1 < i))
  have h2 := c1_process_call_bounds false (fun i => decide (1 < i))
  exact ⟨h1.1, h1.2.2.1 rfl, h1.2.2.2.1 0 (by decide), h2.2.1 rfl⟩

/-! ## C2 -/

/-- C2 (claim as stated is FALSE in its conditional part): the claim says a
nack-without-requeue is issued when `process()` raises.  Counterexample: a
delivery whose first `process` invocation raises (`outcomes 0 = false`, and
that invocation does happen since at least one call is always made) and whose
second returns normally: the delivery's one and only disposition is an ack,
not a nack. -/
theorem c2_single_disposition_counterexample :
    (fun i => decide (0 < i)) 0 = false ∧
    1 ≤ processMessageCalls (fun i => decide (0 < i)) ∧
    onMessageDispositions 7 true (fun i => decide (0 < i))
      = [(7, Disposition.ack)] := by
  refine ⟨by decide, by decide, by decide⟩

/-- C2 (amended): for every accepted delivery, exactly one terminal
disposition is issued for its delivery tag, and it is an ack exactly when the
payload parsed and the internally retried processing (up to 5 attempts)
eventually returned normally; otherwise it is a nack-without-requeue.  No tag
receives a second disposition. -/
theorem c2_single_disposition (tag : Nat) (parseOk : Bool) (outcomes : Nat → Bool) :
    (onMessageDispositions tag parseOk outcomes).length = 1 ∧
    (∀ p ∈ onMessageDispositions tag parseOk outcomes, p.1 = tag) ∧
    (onMessageDispositions tag parseOk outcomes = [(tag, Disposition.ack)] ↔
      parseOk = true ∧ processMessageResult outcomes = true) := by
  unfold onMessageDispositions
  cases parseOk with
  | false => simp
  | true =>
    by_cases hr : processMessageResult outcomes = true
    · simp [hr]
    · have hr' : processMessageResult outcomes = false := by simpa using hr
      simp [hr']

/-- C2 witness: a parsed delivery whose processing succeeds immediately gets
exactly the single disposition `[(3, ack)]`. -/
theorem c2_single_disposition_witness :
    (onMessageDispositions 3 true (fun _ => true)).length = 1 ∧
    onMessageDispositions 3 true (fun _ => true) = [(3, Disposition.ack)] := by
  have h := c2_single_disposition 3 true (fun _ => true)
  exact ⟨h.1, h.2.2.mpr ⟨rfl, by decide⟩⟩

/-! ## Lemmas about the job-wait loop -/

/-- Stepping the job-wait loop through a block of non-terminal polls that all
fall inside the timeout does not change the final outcome. -/
theorem pollJobAux_skip (resp : Nat → Option Job) (interval timeout : Nat) :
    ∀ d fuel k,
      (∀ m, m < d → (k + m) * interval ≤ timeout ∧
        ∃ j, resp (k + m) = some j ∧ j.status ≠ "COMPLETED" ∧ j.status ≠ "FAILED") →
      (pollJobAux resp interval timeout (fuel + d) k).1
        = (pollJobAux resp interval timeout fuel (k + d)).1 := by
  intro d
  induction d with
  | zero => intro fuel k _; rfl
  | succ d ih =>
    intro fuel k h
    obtain ⟨hle, j, hj, hjc, hjf⟩ := h 0 (Nat.succ_pos d)
    rw [Nat.add_zero] at hle hj
    have hfs : fuel + (d + 1) = (fuel + d) + 1 := by omega
    rw [hfs]
    have hstep : (pollJobAux resp interval timeout ((fuel + d) + 1) k).1
        = (pollJobAux resp interval timeout (fuel + d) (k + 1)).1 := by
      simp only [pollJobAux]
      rw [if_neg (by omega : ¬ k * interval > timeout)]
      simp only [hj]
      rw [if_neg hjc, if_neg hjf]
    rw [hstep, show k + (d + 1) = (k + 1) + d from by omega]
    apply ih
    intro m hm
    have hres := h (m + 1) (by omega)
    rwa [show k + (m + 1) = (k + 1) + m from by omega] at hres

/-! ## C3 -/

/-- C3: in the job-wait phase, a poll returning status `FAILED` raises the
permanent (non-timeout) failure, a poll finding no job raises the permanent
not-found failure, and if every poll inside the wait timeout returns a
non-terminal job, the distinguishable timeout error is raised; the three
error kinds are pairwise distinct. -/
theorem c3_job_wait_errors (resp : Nat → Option Job) (interval timeout : Nat)
    (hi : 1 ≤ interval) :
    (∀ n, n * interval ≤ timeout →
      (∀ k, k < n → ∃ j, resp k = some j ∧ j.status ≠ "COMPLETED" ∧ j.status ≠ "FAILED") →
      ((∃ j, resp n = some j ∧ j.status = "FAILED") →
        (pollJobStatus resp interval timeout).1 = Except.error JobWaitError.jobFailed) ∧
      (resp n = none →
        (pollJobStatus resp interval timeout).1 = Except.error JobWaitError.notFound)) ∧
    ((∀ n, n * interval ≤ timeout →
        ∃ j, resp n = some j ∧ j.status ≠ "COMPLETED" ∧ j.status ≠ "FAILED") →
      (pollJobStatus resp interval timeout).1 = Except.error JobWaitError.timeout) ∧
    JobWaitError.jobFailed ≠ JobWaitError.timeout ∧
    JobWaitError.notFound ≠ JobWaitError.timeout ∧
    JobWaitError.notFound ≠ JobWaitError.jobFailed := by
  have hi' : 0 < interval := hi
  refine ⟨?_, ?_, by decide, by decide, by decide⟩
  · intro n hn hpend
    have hnle : n ≤ timeout / interval := (Nat.le_div_iff_mul_le hi').mpr hn
    have hstage : (pollJobStatus resp interval timeout).1
        = (pollJobAux resp interval timeout (timeout / interval + 2 - n) n).1 := by
      unfold pollJobStatus
      conv_lhs =>
        rw [show timeout / interval + 2 = (timeout / interval + 2 - n) + n from by omega]
      rw [pollJobAux_skip resp interval timeout n (timeout / interval + 2 - n) 0 ?_]
      · rw [Nat.zero_add]
      · intro m hm
        refine ⟨?_, by simpa using hpend m hm⟩
        calc (0 + m) * interval ≤ n * interval := by
              apply Nat.mul_le_mul_right
              omega
          _ ≤ timeout := hn
    obtain ⟨fuel, hfuel⟩ : ∃ fuel, timeout / interval + 2 - n = fuel + 1 :=
      ⟨timeout / interval + 1 - n, by omega⟩
    rw [hfuel] at hstage
    constructor
    · rintro ⟨j, hj, hjs⟩
      rw [hstage]
      simp only [pollJobAux]
      rw [if_neg (by omega : ¬ n * interval > timeout)]
      simp only [hj]
      rw [if_neg (by rw [hjs]; decide), if_pos hjs]
    · intro hnone
      rw [hstage]
      simp only [pollJobAux]
      rw [if_neg (by omega : ¬ n * interval > timeout)]
      simp [hnone]
  · intro hall
    have hN : timeout < (timeout / interval + 1) * interval :=
      (Nat.div_lt_iff_lt_mul hi').mp (Nat.lt_succ_self _)
    unfold pollJobStatus
    rw [show timeout / interval + 2 = 1 + (timeout / interval + 1) from by omega]
    rw [pollJobAux_skip resp interval timeout (timeout / interval + 1) 1 0 ?_]
    · rw [Nat.zero_add]
      simp only [pollJobAux]
      rw [if_pos (by omega : (timeout / interval + 1) * interval > timeout)]
    · intro m hm
      have hmle : m * interval ≤ timeout := by
        apply (Nat.le_div_iff_mul_le hi').mp
        omega
      exact ⟨by simpa using hmle, by simpa using hall m (by simpa using hmle)⟩

/-- C3 witness: with poll interval 5 and timeout 100, a `PENDING` poll
followed by a `FAILED` poll ends in the permanent job-failed error. -/
theorem c3_job_wait_errors_witness :
    (pollJobStatus
        (fun n => if n = 0 then some ⟨"j1", "E1", "PENDING"⟩ else some ⟨"j1", "E1", "FAILED"⟩)
        5 100).1
      = Except.error JobWaitError.jobFailed := by
  have h := c3_job_wait_errors
    (fun n => if n = 0 then some ⟨"j1", "E1", "PENDING"⟩ else some ⟨"j1", "E1", "FAILED"⟩)
    5 100 (by decide)
  refine (h.1 1 (by decide) ?_).1 ⟨⟨"j1", "E1", "FAILED"⟩, rfl, rfl⟩
  intro k hk
  cases k with
  | zero => exact ⟨⟨"j1", "E1", "PENDING"⟩, rfl, by decide, by decide⟩
  | succ k' => omega

/-! ## Staging lemma for `process` -/

/-- Once the job wait has delivered a job, `process` is the remaining
pipeline starting at audio resolution. -/
theorem process_ok_poll (msg : TranscriptionMessage) (env : Env) (job : Job)
    (hpoll : (pollJobStatus env.jobResponses env.jobInterval env.jobTimeout).1
      = Except.ok job) :
    process msg env =
      match findAudioFile env.storage job.entity_id (dirName msg.objectPath) with
      | none => (Except.error ProcErr.noAudioFound, [Event.listObjects])
      | some audioPath =>
        if env.audioOk = true then
          match transcribeResult env with
          | Except.error e =>
            (Except.error e, [Event.listObjects, Event.download, Event.providerSubmit])
          | Except.ok r =>
            match persistPayload env.uploadOk env.localWriteOk with
            | (Except.error e, pevs) =>
              (Except.error e,
                [Event.listObjects, Event.download, Event.providerSubmit] ++ pevs)
            | (Except.ok _, pevs) =>
              (Except.ok (buildPayload msg env job.entity_id audioPath r),
                [Event.listObjects, Event.download, Event.providerSubmit] ++ pevs)
        else (Except.error ProcErr.audioMissingOrEmpty,
          [Event.listObjects, Event.download]) := by
  unfold process
  rw [hpoll]

/-! ## C9 -/

/-- C9: when the job status gateway returns a `COMPLETED` job on the very
first poll, the job-wait phase performs zero sleeps and returns that job, and
`process` proceeds directly to audio resolution (its effect trace starts with
the storage listing). -/
theorem c9_completed_first_poll_no_sleep (resp : Nat → Option Job)
    (interval timeout : Nat) (job : Job)
    (h0 : resp 0 = some job) (hc : job.status = "COMPLETED") :
    pollJobStatus resp interval timeout = (Except.ok job, 0) ∧
    ∀ msg env, env.jobResponses = resp → env.jobInterval = interval →
      env.jobTimeout = timeout →
      (process msg env).2.head? = some Event.listObjects := by
  have hp : pollJobStatus resp interval timeout = (Except.ok job, 0) := by
    unfold pollJobStatus
    rw [show timeout / interval + 2 = (timeout / interval + 1) + 1 from rfl]
    rw [show pollJobAux resp interval timeout ((timeout / interval + 1) + 1) 0
        = if 0 * interval > timeout then (Except.error JobWaitError.timeout, 0)
          else match resp 0 with
            | none => (Except.error JobWaitError.notFound, 0)
            | some job =>
              if job.status = "COMPLETED" then (Except.ok job, 0)
              else if job.status = "FAILED" then
                (Except.error JobWaitError.jobFailed, 0)
              else
                ((pollJobAux resp interval timeout (timeout / interval + 1) 1).1,
                  (pollJobAux resp interval timeout (timeout / interval + 1) 1).2 + 1)
        from rfl]
    rw [if_neg (by simp)]
    simp only [h0]
    rw [if_pos hc]
  refine ⟨hp, ?_⟩
  intro msg env h1 h2 h3
  have hmain : (pollJobStatus env.jobResponses env.jobInterval env.jobTimeout).1
      = Except.ok job := by
    rw [h1, h2, h3, hp]
  rw [process_ok_poll msg env job hmain]
  cases findAudioFile env.storage job.entity_id (dirName msg.objectPath) with
  | none => rfl
  | some ap =>
    cases env.audioOk with
    | false => rfl
    | true =>
      cases transcribeResult env with
      | error e => rfl
      | ok r =>
        rcases hper : persistPayload env.uploadOk env.localWriteOk with ⟨pr, pevs⟩
        cases pr with
        | error e => rfl
        | ok u => rfl

/-- C9 witness: a gateway answering `COMPLETED` immediately, with interval 5
and timeout 10, yields the job with zero sleeps. -/
theorem c9_completed_first_poll_no_sleep_witness :
    pollJobStatus (fun _ => some ⟨"j1", "E1", "COMPLETED"⟩) 5 10
      = (Except.ok ⟨"j1", "E1", "COMPLETED"⟩, 0) :=
  (c9_completed_first_poll_no_sleep (fun _ => some ⟨"j1", "E1", "COMPLETED"⟩)
    5 10 ⟨"j1", "E1", "COMPLETED"⟩ rfl rfl).1

/-! ## Lemmas about the audio-object scan -/

theorem scan_fst_char (l : List String) :
    ∀ acc : Option String × List String,
      ((l.foldl scanStep acc).1 = acc.1 ∧
        ∀ o ∈ l, strEndsWith o "audio.m3u8" = false) ∨
      (∃ a, (l.foldl scanStep acc).1 = some a ∧ a ∈ l ∧
        strEndsWith a "audio.m3u8" = true) := by
  induction l with
  | nil => intro acc; left; exact ⟨rfl, by simp⟩
  | cons o t ih =>
    intro acc
    rw [List.foldl_cons]
    by_cases ho : strEndsWith o "audio.m3u8" = true
    · rcases ih (scanStep acc o) with ⟨h1, _⟩ | ⟨a, h1, h2, h3⟩
      · right
        refine ⟨o, ?_, List.mem_cons_self o t, ho⟩
        rw [h1]
        unfold scanStep
        rw [if_pos ho]
      · right
        exact ⟨a, h1, List.mem_cons_of_mem o h2, h3⟩
    · have ho' : strEndsWith o "audio.m3u8" = false := by simpa using ho
      have hacc : (scanStep acc o).1 = acc.1 := by
        unfold scanStep
        rw [if_neg (by simp [ho'])]
        split <;> rfl
      rcases ih (scanStep acc o) with ⟨h1, h2⟩ | ⟨a, h1, h2, h3⟩
      · left
        refine ⟨by rw [h1, hacc], ?_⟩
        intro x hx
        rcases List.mem_cons.mp hx with hx0 | hxt
        · rw [hx0]; exact ho'
        · exact h2 x hxt
      · right
        exact ⟨a, h1, List.mem_cons_of_mem o h2, h3⟩

theorem scan_snd_sub (l : List String) :
    ∀ acc a, a ∈ (l.foldl scanStep acc).2 →
      a ∈ acc.2 ∨ (a ∈ l ∧ audioExtAny a = true ∧ strEndsWith a "audio.m3u8" = false) := by
  induction l with
  | nil => intro acc a ha; left; exact ha
  | cons o t ih =>
    intro acc a ha
    rw [List.foldl_cons] at ha
    rcases ih (scanStep acc o) a ha with hin | ⟨h1, h2, h3⟩
    · by_cases ho : strEndsWith o "audio.m3u8" = true
      · left
        have hs : (scanStep acc o).2 = acc.2 := by
          unfold scanStep; rw [if_pos ho]
        rwa [hs] at hin
      · have ho' : strEndsWith o "audio.m3u8" = false := by simpa using ho
        by_cases he : audioExtAny o = true
        · have hs : (scanStep acc o).2 = acc.2 ++ [o] := by
            unfold scanStep
            rw [if_neg (by simp [ho']), if_pos he]
          rw [hs] at hin
          rcases List.mem_append.mp hin with hmem | hmem
          · left; exact hmem
          · right
            have hao : a = o := by simpa using hmem
            subst hao
            exact ⟨List.mem_cons_self a t, he, ho'⟩
        · have he' : audioExtAny o = false := by simpa using he
          have hs : (scanStep acc o).2 = acc.2 := by
            unfold scanStep
            rw [if_neg (by simp [ho']), if_neg (by simp [he'])]
          rw [hs] at hin
          left; exact hin
    · right; exact ⟨List.mem_cons_of_mem o h1, h2, h3⟩

theorem scan_snd_nonempty_mono (l : List String) :
    ∀ acc : Option String × List String, acc.2 ≠ [] → (l.foldl scanStep acc).2 ≠ [] := by
  induction l with
  | nil => intro acc h; exact h
  | cons o t ih =>
    intro acc h
    rw [List.foldl_cons]
    apply ih
    unfold scanStep
    split
    · exact h
    · split
      · simp
      · exact h

theorem scan_snd_ne_nil (l : List String) :
    ∀ acc : Option String × List String,
      (∃ o ∈ l, strEndsWith o "audio.m3u8" = false ∧ audioExtAny o = true) →
      (l.foldl scanStep acc).2 ≠ [] := by
  induction l with
  | nil => intro acc h; simp at h
  | cons o t ih =>
    intro acc h
    rw [List.foldl_cons]
    rcases h with ⟨x, hx, hx1, hx2⟩
    rcases List.mem_cons.mp hx with hxo | hxt
    · subst hxo
      apply scan_snd_nonempty_mono
      unfold scanStep
      rw [if_neg (by simp [hx1]), if_pos hx2]
      simp
    · exact ih (scanStep acc o) ⟨x, hxt, hx1, hx2⟩

theorem scan_snd_eq (l : List String) :
    ∀ acc : Option String × List String,
      (∀ o ∈ l, strEndsWith o "audio.m3u8" = true ∨ audioExtAny o = false) →
      (l.foldl scanStep acc).2 = acc.2 := by
  induction l with
  | nil => intro acc _; rfl
  | cons o t ih =>
    intro acc h
    rw [List.foldl_cons]
    rw [ih (scanStep acc o) (fun x hx => h x (List.mem_cons_of_mem o hx))]
    rcases h o (List.mem_cons_self o t) with h1 | h1
    · unfold scanStep; rw [if_pos h1]
    · unfold scanStep
      split
      · rfl
      · rw [if_neg (by simp [h1])]

/-! ## C5 -/

/-- C5: audio resolution applies the fixed preference order.  (1) when some
listed object under the per-entity video prefix ends in `audio.m3u8`, the
result is such an object; (2) otherwise, when some listed object has a
standalone audio extension, the result is such an object; (3) otherwise the
result is the master playlist exactly when that key exists in the bucket,
and a not-found result otherwise; and (4) a not-found result is raised by
`process` as the permanent no-audio failure before any speech-provider
call. -/
theorem c5_audio_resolution_preference :
    (∀ objects entityId vd,
      ((∃ o ∈ videoObjects objects entityId, strEndsWith o "audio.m3u8" = true) →
        ∃ a, findAudioFile (Storage.ok objects) entityId vd = some a ∧
          a ∈ videoObjects objects entityId ∧ strEndsWith a "audio.m3u8" = true) ∧
      ((∀ o ∈ videoObjects objects entityId, strEndsWith o "audio.m3u8" = false) →
        (∃ o ∈ videoObjects objects entityId, audioExtAny o = true) →
        ∃ a, findAudioFile (Storage.ok objects) entityId vd = some a ∧
          a ∈ videoObjects objects entityId ∧ audioExtAny a = true ∧
          strEndsWith a "audio.m3u8" = false) ∧
      ((∀ o ∈ videoObjects objects entityId,
          strEndsWith o "audio.m3u8" = false ∧ audioExtAny o = false) →
        ((("lessons/" ++ entityId ++ "/videos/") ++ "master.m3u8") ∈ objects →
          findAudioFile (Storage.ok objects) entityId vd
            = some (("lessons/" ++ entityId ++ "/videos/") ++ "master.m3u8")) ∧
        ((("lessons/" ++ entityId ++ "/videos/") ++ "master.m3u8") ∉ objects →
          findAudioFile (Storage.ok objects) entityId vd = none))) ∧
    (∀ msg env job,
      (pollJobStatus env.jobResponses env.jobInterval env.jobTimeout).1
        = Except.ok job →
      findAudioFile env.storage job.entity_id (dirName msg.objectPath) = none →
      process msg env = (Except.error ProcErr.noAudioFound, [Event.listObjects]) ∧
      Event.providerSubmit ∉ (process msg env).2) := by
  constructor
  · intro objects entityId vd
    refine ⟨?_, ?_, ?_⟩
    · intro hex
      rcases scan_fst_char (videoObjects objects entityId) (none, []) with
        ⟨_, h2⟩ | ⟨a, h1, h2, h3⟩
      · obtain ⟨o, ho, hoe⟩ := hex
        rw [h2 o ho] at hoe
        cases hoe
      · refine ⟨a, ?_, h2, h3⟩
        simp only [findAudioFile, scanObjects]
        rw [h1]
    · intro hnone hex
      have h1 : (List.foldl scanStep (none, []) (videoObjects objects entityId)).1
          = none := by
        rcases scan_fst_char (videoObjects objects entityId) (none, []) with
          ⟨ha, _⟩ | ⟨a, _, h2, h3⟩
        · exact ha
        · rw [hnone a h2] at h3; cases h3
      have h2 : (List.foldl scanStep (none, []) (videoObjects objects entityId)).2
          ≠ [] := by
        apply scan_snd_ne_nil
        obtain ⟨o, ho, he⟩ := hex
        exact ⟨o, ho, hnone o ho, he⟩
      obtain ⟨b, rest, hcons⟩ : ∃ b rest,
          (List.foldl scanStep (none, []) (videoObjects objects entityId)).2
            = b :: rest := by
        cases hl : (List.foldl scanStep (none, []) (videoObjects objects entityId)).2 with
        | nil => exact absurd hl h2
        | cons b rest => exact ⟨b, rest, rfl⟩
      have hb : b ∈ (List.foldl scanStep (none, []) (videoObjects objects entityId)).2 := by
        rw [hcons]; exact List.mem_cons_self b rest
      rcases scan_snd_sub (videoObjects objects entityId) (none, []) b hb with
        hmem | ⟨hm, he, hn⟩
      · simp at hmem
      · refine ⟨b, ?_, hm, he, hn⟩
        simp only [findAudioFile, scanObjects]
        rw [h1, hcons]
    · intro hall
      have h1 : (List.foldl scanStep (none, []) (videoObjects objects entityId)).1
          = none := by
        rcases scan_fst_char (videoObjects objects entityId) (none, []) with
          ⟨ha, _⟩ | ⟨a, _, h2, h3⟩
        · exact ha
        · rw [(hall a h2).1] at h3; cases h3
      have h2 : (List.foldl scanStep (none, []) (videoObjects objects entityId)).2
          = [] :=
        scan_snd_eq (videoObjects objects entityId) (none, [])
          (fun o ho => Or.inr (hall o ho).2)
      constructor
      · intro hmem
        have hcont : objects.contains
            (("lessons/" ++ entityId ++ "/videos/") ++ "master.m3u8") = true :=
          List.elem_iff.mpr hmem
        simp only [findAudioFile, scanObjects]
        rw [h1, h2, if_pos hcont]
      · intro hmem
        have hcont : ¬ objects.contains
            (("lessons/" ++ entityId ++ "/videos/") ++ "master.m3u8") = true := by
          intro hc
          exact hmem (List.elem_iff.mp hc)
        simp only [findAudioFile, scanObjects]
        rw [h1, h2, if_neg hcont]
  · intro msg env job hpoll hfind
    have hpr := process_ok_poll msg env job hpoll
    rw [hfind] at hpr
    refine ⟨hpr, ?_⟩
    rw [hpr]
    simp

/-- C5 witness: a bucket that holds only the source video and the dedicated
audio playlist resolves to the audio playlist, and with an empty bucket a
completed job still fails permanently with no provider call. -/
theorem c5_audio_resolution_preference_witness :
    (∃ a, findAudioFile
        (Storage.ok ["lessons/E1/videos/123-video.mp4", "lessons/E1/videos/audio.m3u8"])
        "E1" "lessons/E1/videos" = some a ∧
      a ∈ videoObjects
        ["lessons/E1/videos/123-video.mp4", "lessons/E1/videos/audio.m3u8"] "E1" ∧
      strEndsWith a "audio.m3u8" = true) := by
  have h := c5_audio_resolution_preference
  exact (h.1 ["lessons/E1/videos/123-video.mp4", "lessons/E1/videos/audio.m3u8"]
    "E1" "lessons/E1/videos").1
    ⟨"lessons/E1/videos/audio.m3u8", by decide, by decide⟩

/-! ## C10 -/

/-- C10: any exception while listing makes `_find_audio_file` return the
not-found result, so `process` turns a storage transport error into exactly
the same permanent no-audio failure as a genuinely empty bucket, with a
single listing attempt and no speech-provider call. -/
theorem c10_listing_error_not_found :
    (∀ entityId vd, findAudioFile Storage.transportError entityId vd = none) ∧
    (∀ msg env job,
      env.storage = Storage.transportError →
      (pollJobStatus env.jobResponses env.jobInterval env.jobTimeout).1
        = Except.ok job →
      process msg env = (Except.error ProcErr.noAudioFound, [Event.listObjects]) ∧
      process msg env = process msg { env with storage := Storage.ok [] } ∧
      Event.providerSubmit ∉ (process msg env).2) := by
  refine ⟨fun _ _ => rfl, ?_⟩
  intro msg env job hst hpoll
  have hfind : findAudioFile env.storage job.entity_id (dirName msg.objectPath)
      = none := by
    rw [hst]
    rfl
  have h1 : process msg env
      = (Except.error ProcErr.noAudioFound, [Event.listObjects]) := by
    have hpr := process_ok_poll msg env job hpoll
    rw [hfind] at hpr
    exact hpr
  have hpoll' : (pollJobStatus ({ env with storage := Storage.ok [] }).jobResponses
      ({ env with storage := Storage.ok [] }).jobInterval
      ({ env with storage := Storage.ok [] }).jobTimeout).1 = Except.ok job := hpoll
  have h2 : process msg { env with storage := Storage.ok [] }
      = (Except.error ProcErr.noAudioFound, [Event.listObjects]) := by
    have hpr := process_ok_poll msg { env with storage := Storage.ok [] } job hpoll'
    have hfind' : findAudioFile ({ env with storage := Storage.ok [] }).storage
        job.entity_id (dirName msg.objectPath) = none := rfl
    rw [hfind'] at hpr
    exact hpr
  refine ⟨h1, by rw [h1, h2], by rw [h1]; simp⟩

/-- C10 witness: with a transport error on listing and a completed job, the
concrete run fails with the permanent no-audio error and an effect trace of
one listing only. -/
theorem c10_listing_error_not_found_witness :
    process wMsg { wEnv with storage := Storage.transportError }
      = (Except.error ProcErr.noAudioFound, [Event.listObjects]) :=
  (c10_listing_error_not_found.2 wMsg { wEnv with storage := Storage.transportError }
    ⟨"abc-123", "E1", "COMPLETED"⟩ rfl rfl).1

/-! ## Inversion of a successful `process` run -/

/-- A successful `process` run pins down every stage: the job wait returned a
job, audio was found, download/extraction succeeded, transcription reached
`completed`, the durable upload succeeded, and the returned payload is the
assembled one. -/
theorem process_ok_inv (msg : TranscriptionMessage) (env : Env)
    (payload : TranscriptPayload) (evs : List Event)
    (h : process msg env = (Except.ok payload, evs)) :
    ∃ job audioPath r,
      (pollJobStatus env.jobResponses env.jobInterval env.jobTimeout).1
        = Except.ok job ∧
      findAudioFile env.storage job.entity_id (dirName msg.objectPath)
        = some audioPath ∧
      env.audioOk = true ∧
      transcribeResult env = Except.ok r ∧
      env.uploadOk = true ∧
      payload = buildPayload msg env job.entity_id audioPath r := by
  cases hpoll : (pollJobStatus env.jobResponses env.jobInterval env.jobTimeout).1 with
  | error e =>
    unfold process at h
    rw [hpoll] at h
    simp at h
  | ok job =>
    rw [process_ok_poll msg env job hpoll] at h
    cases hfind : findAudioFile env.storage job.entity_id (dirName msg.objectPath) with
    | none => rw [hfind] at h; simp at h
    | some ap =>
      rw [hfind] at h
      cases haud : env.audioOk with
      | false => rw [haud] at h; simp at h
      | true =>
        rw [haud] at h
        cases htr : transcribeResult env with
        | error e => rw [htr] at h; simp at h
        | ok r =>
          rw [htr] at h
          cases hup : env.uploadOk with
          | false =>
            rw [hup] at h
            simp [persistPayload] at h
          | true =>
            rw [hup] at h
            have h' : ((Except.ok (buildPayload msg env job.entity_id ap r) :
                Except ProcErr TranscriptPayload),
                [Event.listObjects, Event.download, Event.providerSubmit]
                  ++ [Event.upload, Event.localWrite])
                = ((Except.ok payload : Except ProcErr TranscriptPayload), evs) := h
            have hfst : (Except.ok (buildPayload msg env job.entity_id ap r) :
                Except ProcErr TranscriptPayload) = Except.ok payload :=
              congrArg Prod.fst h'
            injection hfst with hb
            exact ⟨job, ap, r, rfl, hfind, rfl, rfl, rfl, hb.symm⟩

/-- Success of `process` under explicitly successful stages, with the full
effect trace: the durable upload happens before the local backup write, and
the result does not depend on `localWriteOk` at all. -/
theorem process_success (msg : TranscriptionMessage) (env : Env) (job : Job)
    (audioPath : String) (r : ProviderResp)
    (hpoll : (pollJobStatus env.jobResponses env.jobInterval env.jobTimeout).1
      = Except.ok job)
    (hfind : findAudioFile env.storage job.entity_id (dirName msg.objectPath)
      = some audioPath)
    (haud : env.audioOk = true)
    (htr : transcribeResult env = Except.ok r)
    (hup : env.uploadOk = true) :
    process msg env
      = (Except.ok (buildPayload msg env job.entity_id audioPath r),
        [Event.listObjects, Event.download, Event.providerSubmit,
          Event.upload, Event.localWrite]) := by
  rw [process_ok_poll msg env job hpoll, hfind, haud, htr, hup]
  rfl

/-- Failure of the durable upload propagates out of `process`, and the local
backup write is never attempted. -/
theorem process_upload_fail (msg : TranscriptionMessage) (env : Env) (job : Job)
    (audioPath : String) (r : ProviderResp)
    (hpoll : (pollJobStatus env.jobResponses env.jobInterval env.jobTimeout).1
      = Except.ok job)
    (hfind : findAudioFile env.storage job.entity_id (dirName msg.objectPath)
      = some audioPath)
    (haud : env.audioOk = true)
    (htr : transcribeResult env = Except.ok r)
    (hup : env.uploadOk = false) :
    process msg env
      = (Except.error ProcErr.uploadFailed,
        [Event.listObjects, Event.download, Event.providerSubmit, Event.upload]) := by
  rw [process_ok_poll msg env job hpoll, hfind, haud, htr, hup]
  rfl

/-! ## Non-empty translations -/

theorem normText_ne_empty {x : Option String} {t : String}
    (h : normText x = some t) : t ≠ "" := by
  cases x with
  | none => cases h
  | some u =>
    simp only [normText] at h
    by_cases he : strTrim u = ""
    · rw [if_pos he] at h; cases h
    · rw [if_neg he] at h
      injection h with h'
      exact h' ▸ he

theorem translatePollAux_ne_empty (resp : Nat → TransPollResp) (interval timeout : Nat) :
    ∀ fuel n t, (translatePollAux resp interval timeout fuel n).1 = some t → t ≠ "" := by
  intro fuel
  induction fuel with
  | zero => intro n t h; cases h
  | succ f ih =>
    intro n t h
    simp only [translatePollAux] at h
    split at h
    · cases h
    · split at h
      · cases h
      · split at h
        · split at h
          · cases h
          · split at h
            · split at h
              next u hnorm =>
                have h' : some u = some t := h
                injection h' with h''
                exact h'' ▸ normText_ne_empty hnorm
              next hnorm => exact ih (n + 1) t h
            · exact ih (n + 1) t h
        · exact ih (n + 1) t h

theorem resolveTranslation_ne_empty (inlineEn detectedLang : Option String)
    (requestOk : Bool) (resp : Nat → TransPollResp) (interval timeout : Nat)
    (t : String)
    (h : resolveTranslation inlineEn detectedLang requestOk resp interval timeout
      = some t) :
    t ≠ "" := by
  unfold resolveTranslation at h
  split at h
  next u hnorm =>
    have h' : some u = some t := h
    injection h' with h''
    exact h'' ▸ normText_ne_empty hnorm
  next hnorm =>
    split at h
    · cases h
    next lang =>
      split at h
      · cases h
      · split at h
        · cases h
        · split at h
          · exact translatePollAux_ne_empty resp interval timeout _ 0 t h
          · cases h

/-! ## C6 -/

/-- C6: on every successful run, the persisted payload's `text` is the
(always non-empty) English translation whenever one was obtained — inline or
via the out-of-band request — and otherwise the stripped original-language
text. -/
theorem c6_payload_text_translation (msg : TranscriptionMessage) (env : Env)
    (payload : TranscriptPayload) (evs : List Event)
    (h : process msg env = (Except.ok payload, evs)) :
    ∃ r, transcribeResult env = Except.ok r ∧
      ((∃ t, envTranslated env r = some t ∧ t ≠ "" ∧ payload.text = t) ∨
       (envTranslated env r = none ∧ payload.text = originalTextOf r)) := by
  obtain ⟨job, ap, r, hpoll, hfind, haud, htr, hup, hpay⟩ :=
    process_ok_inv msg env payload evs h
  refine ⟨r, htr, ?_⟩
  cases hT : envTranslated env r with
  | none =>
    right
    refine ⟨rfl, ?_⟩
    rw [hpay]
    show (envTranslated env r).getD (originalTextOf r) = originalTextOf r
    rw [hT]
    rfl
  | some t =>
    left
    refine ⟨t, rfl,
      resolveTranslation_ne_empty r.translated_en r.language_code
        env.translationRequestOk env.transResponses env.pollInterval
        env.pollTimeout t hT, ?_⟩
    rw [hpay]
    show (envTranslated env r).getD (originalTextOf r) = t
    rw [hT]
    rfl

/-- C6 witness: on the concrete all-success run with an inline translation
`" hello "`, the claim's disjunction is realised (stripped translation
`"hello"`). -/
theorem c6_payload_text_translation_witness :
    ∃ r, transcribeResult wEnv = Except.ok r ∧
      ((∃ t, envTranslated wEnv r = some t ∧ t ≠ "" ∧
        (buildPayload wMsg wEnv "E1" "lessons/E1/videos/audio.m3u8" wProv).text = t) ∨
       (envTranslated wEnv r = none ∧
        (buildPayload wMsg wEnv "E1" "lessons/E1/videos/audio.m3u8" wProv).text
          = originalTextOf r)) :=
  c6_payload_text_translation wMsg wEnv
    (buildPayload wMsg wEnv "E1" "lessons/E1/videos/audio.m3u8" wProv)
    [Event.listObjects, Event.download, Event.providerSubmit,
      Event.upload, Event.localWrite]
    rfl

/-! ## C7 -/

/-- C7: on every successful run, the persisted payload's `duration` is the
provider's reported audio duration (milliseconds per the source's own
conversion comment) expressed in seconds — `duration * 1000` recovers the
reported value — and `0` when the provider reports no duration. -/
theorem c7_payload_duration_seconds (msg : TranscriptionMessage) (env : Env)
    (payload : TranscriptPayload) (evs : List Event)
    (h : process msg env = (Except.ok payload, evs)) :
    ∃ r, transcribeResult env = Except.ok r ∧
      ((∃ ms, r.audio_duration = some ms ∧ payload.duration * 1000 = (ms : ℚ)) ∨
       (r.audio_duration = none ∧ payload.duration = 0)) := by
  obtain ⟨job, ap, r, hpoll, hfind, haud, htr, hup, hpay⟩ :=
    process_ok_inv msg env payload evs h
  refine ⟨r, htr, ?_⟩
  have hdur : payload.duration = durationOf r.audio_duration := by
    rw [hpay]
    rfl
  cases hd : r.audio_duration with
  | none =>
    right
    exact ⟨rfl, by rw [hdur, hd]; rfl⟩
  | some ms =>
    left
    refine ⟨ms, rfl, ?_⟩
    rw [hdur, hd]
    simp only [durationOf]
    by_cases hz : ms = 0
    · subst hz; simp
    · rw [if_neg hz]
      exact div_mul_cancel₀ (ms : ℚ) (by norm_num)

/-- C7 witness: the concrete all-success run reports 2000 (milliseconds), and
the persisted duration times 1000 recovers it. -/
theorem c7_payload_duration_seconds_witness :
    ∃ r, transcribeResult wEnv = Except.ok r ∧
      ((∃ ms, r.audio_duration = some ms ∧
        (buildPayload wMsg wEnv "E1" "lessons/E1/videos/audio.m3u8" wProv).duration * 1000
          = (ms : ℚ)) ∨
       (r.audio_duration = none ∧
        (buildPayload wMsg wEnv "E1" "lessons/E1/videos/audio.m3u8" wProv).duration = 0)) :=
  c7_payload_duration_seconds wMsg wEnv
    (buildPayload wMsg wEnv "E1" "lessons/E1/videos/audio.m3u8" wProv)
    [Event.listObjects, Event.download, Event.providerSubmit,
      Event.upload, Event.localWrite]
    rfl

/-! ## C8 -/

/-- C8: during persistence the durable upload is attempted first; its failure
propagates and fails the message with no local backup attempt, while a
failure of the local backup write is swallowed (the result never depends on
`localWriteOk`) and the message still succeeds. -/
theorem c8_persistence_order_and_fatality :
    (∀ localOk, persistPayload true localOk
      = (Except.ok (), [Event.upload, Event.localWrite])) ∧
    (∀ localOk, persistPayload false localOk
      = (Except.error ProcErr.uploadFailed, [Event.upload])) ∧
    (∀ msg env job audioPath r,
      (pollJobStatus env.jobResponses env.jobInterval env.jobTimeout).1
        = Except.ok job →
      findAudioFile env.storage job.entity_id (dirName msg.objectPath)
        = some audioPath →
      env.audioOk = true →
      transcribeResult env = Except.ok r →
      ((env.uploadOk = true →
        process msg env
          = (Except.ok (buildPayload msg env job.entity_id audioPath r),
            [Event.listObjects, Event.download, Event.providerSubmit,
              Event.upload, Event.localWrite])) ∧
       (env.uploadOk = false →
        process msg env
          = (Except.error ProcErr.uploadFailed,
            [Event.listObjects, Event.download, Event.providerSubmit,
              Event.upload])))) := by
  refine ⟨fun _ => rfl, fun _ => rfl, ?_⟩
  intro msg env job audioPath r hpoll hfind haud htr
  exact ⟨fun hup => process_success msg env job audioPath r hpoll hfind haud htr hup,
    fun hup => process_upload_fail msg env job audioPath r hpoll hfind haud htr hup⟩

/-- C8 witness: with a failing local backup write the concrete run still
succeeds, uploading before the local write. -/
theorem c8_persistence_order_and_fatality_witness :
    persistPayload true false = (Except.ok (), [Event.upload, Event.localWrite]) ∧
    process wMsg { wEnv with localWriteOk := false }
      = (Except.ok (buildPayload wMsg { wEnv with localWriteOk := false } "E1"
          "lessons/E1/videos/audio.m3u8" wProv),
        [Event.listObjects, Event.download, Event.providerSubmit,
          Event.upload, Event.localWrite]) := by
  have h := c8_persistence_order_and_fatality
  refine ⟨h.1 false, ?_⟩
  exact (h.2.2 wMsg { wEnv with localWriteOk := false } ⟨"abc-123", "E1", "COMPLETED"⟩
    "lessons/E1/videos/audio.m3u8" wProv rfl (by decide) rfl rfl).1 rfl

/-! ## The translation grace period -/

/-- When every translation poll finds the transcript `completed` with no
speech-understanding response, the sub-poll stops at the first iteration past
`GRACE_SECONDS` — after exactly `GRACE_SECONDS / interval + 2 - n` fetches
from iteration `n` — and returns no translation, provided the sub-poll's own
timeout lies beyond the grace period. -/
theorem translate_grace_stop (resp : Nat → TransPollResp) (interval timeout : Nat)
    (hi : 1 ≤ interval) (ht : GRACE_SECONDS + interval ≤ timeout)
    (hall : ∀ m, (resp m).status = TranscriptStatus.completed ∧ (resp m).su = none) :
    ∀ fuel n, n ≤ GRACE_SECONDS / interval + 1 →
      GRACE_SECONDS / interval + 2 ≤ fuel + n →
      translatePollAux resp interval timeout fuel n
        = (none, GRACE_SECONDS / interval + 2 - n) := by
  intro fuel
  induction fuel with
  | zero =>
    intro n h1 h2
    exact absurd h2 (by omega)
  | succ f ih =>
    intro n h1 h2
    obtain ⟨hst, hsu⟩ := hall n
    have hdm : GRACE_SECONDS / interval * interval ≤ GRACE_SECONDS :=
      Nat.div_mul_le_self GRACE_SECONDS interval
    have hn_le : n * interval ≤ GRACE_SECONDS + interval := by
      calc n * interval ≤ (GRACE_SECONDS / interval + 1) * interval :=
            Nat.mul_le_mul_right interval h1
        _ = GRACE_SECONDS / interval * interval + interval := by ring
        _ ≤ GRACE_SECONDS + interval := by omega
    simp only [translatePollAux]
    rw [if_neg (by omega : ¬ n * interval > timeout)]
    by_cases hlast : n = GRACE_SECONDS / interval + 1
    · have hgt : n * interval > GRACE_SECONDS := by
        have hx : GRACE_SECONDS < (GRACE_SECONDS / interval + 1) * interval :=
          (Nat.div_lt_iff_lt_mul hi).mp (Nat.lt_succ_self _)
        rw [hlast]
        exact hx
      rw [if_pos ⟨hst, hgt, hsu⟩, hlast,
        show GRACE_SECONDS / interval + 2 - (GRACE_SECONDS / interval + 1) = 1
          from by omega]
    · have hn : n ≤ GRACE_SECONDS / interval := by omega
      have hng : ¬ n * interval > GRACE_SECONDS := by
        have hx : n * interval ≤ GRACE_SECONDS / interval * interval :=
          Nat.mul_le_mul_right interval hn
        omega
      rw [if_neg (fun hc => hng hc.2.1)]
      simp only [hsu]
      rw [ih (n + 1) (by omega) (by omega),
        show GRACE_SECONDS / interval + 2 - n
          = (GRACE_SECONDS / interval + 2 - (n + 1)) + 1 from by omega]

/-! ## C4 -/

/-- C4: when the base transcription is already `completed` but the
out-of-band translation sub-poll never sees a translation response, polling
stops right after the 60-second grace period (far short of the sub-poll's
own timeout), no translation is used, and `process` still succeeds with the
payload's `text` equal to the original-language text; moreover, with the
other stages fixed, no translation-poll behaviour and no failure of the
out-of-band translation request can make the message fail. -/
theorem c4_translation_grace_fallback
    (msg : TranscriptionMessage) (env : Env) (job : Job) (audioPath : String)
    (r : ProviderResp) (lang : String)
    (hi : 1 ≤ env.pollInterval)
    (ht : GRACE_SECONDS + env.pollInterval ≤ env.pollTimeout)
    (hall : ∀ m, (env.transResponses m).status = TranscriptStatus.completed ∧
      (env.transResponses m).su = none)
    (hpoll : (pollJobStatus env.jobResponses env.jobInterval env.jobTimeout).1
      = Except.ok job)
    (hfind : findAudioFile env.storage job.entity_id (dirName msg.objectPath)
      = some audioPath)
    (haud : env.audioOk = true)
    (htr : transcribeResult env = Except.ok r)
    (hinline : normText r.translated_en = none)
    (hlang : r.language_code = some lang)
    (hl1 : lang ≠ "") (hl2 : lang ≠ "en")
    (hup : env.uploadOk = true) :
    translatePollAux env.transResponses env.pollInterval env.pollTimeout
        (env.pollTimeout / env.pollInterval + 2) 0
      = (none, GRACE_SECONDS / env.pollInterval + 2) ∧
    envTranslated env r = none ∧
    process msg env
      = (Except.ok (buildPayload msg env job.entity_id audioPath r),
        [Event.listObjects, Event.download, Event.providerSubmit,
          Event.upload, Event.localWrite]) ∧
    (buildPayload msg env job.entity_id audioPath r).text = originalTextOf r ∧
    (∀ tr rq,
      process msg { env with transResponses := tr, translationRequestOk := rq }
        = (Except.ok (buildPayload msg
            { env with transResponses := tr, translationRequestOk := rq }
            job.entity_id audioPath r),
          [Event.listObjects, Event.download, Event.providerSubmit,
            Event.upload, Event.localWrite])) := by
  have hdiv : GRACE_SECONDS / env.pollInterval ≤ env.pollTimeout / env.pollInterval :=
    Nat.div_le_div_right (by omega)
  have hfuel : GRACE_SECONDS / env.pollInterval + 2
      ≤ env.pollTimeout / env.pollInterval + 2 + 0 := by
    simpa using Nat.add_le_add_right hdiv 2
  have hstop := translate_grace_stop env.transResponses env.pollInterval
    env.pollTimeout hi ht hall (env.pollTimeout / env.pollInterval + 2) 0
    (Nat.zero_le _) hfuel
  rw [Nat.sub_zero] at hstop
  have hT : envTranslated env r = none := by
    unfold envTranslated
    simp only [resolveTranslation, hinline, hlang]
    rw [if_neg hl1, if_neg hl2]
    cases hrq : env.translationRequestOk with
    | false => rfl
    | true =>
      rw [hstop]
      rfl
  refine ⟨hstop, hT, process_success msg env job audioPath r hpoll hfind haud htr hup,
    ?_, ?_⟩
  · show (envTranslated env r).getD (originalTextOf r) = originalTextOf r
    rw [hT]
    rfl
  · intro tr rq
    exact process_success msg
      { env with transResponses := tr, translationRequestOk := rq }
      job audioPath r hpoll hfind haud htr hup

/-- C4 witness: the concrete degraded run (no inline translation, sub-poll
always `completed` with no speech-understanding response, interval 5,
sub-poll timeout 120) stops after 14 fetches, falls back, and succeeds with
the original text. -/
theorem c4_translation_grace_fallback_witness :
    translatePollAux wEnvNT.transResponses wEnvNT.pollInterval wEnvNT.pollTimeout
        (wEnvNT.pollTimeout / wEnvNT.pollInterval + 2) 0
      = (none, GRACE_SECONDS / wEnvNT.pollInterval + 2) ∧
    envTranslated wEnvNT wProvNT = none ∧
    process wMsg wEnvNT
      = (Except.ok (buildPayload wMsg wEnvNT "E1" "lessons/E1/videos/audio.m3u8" wProvNT),
        [Event.listObjects, Event.download, Event.providerSubmit,
          Event.upload, Event.localWrite]) ∧
    (buildPayload wMsg wEnvNT "E1" "lessons/E1/videos/audio.m3u8" wProvNT).text
      = originalTextOf wProvNT := by
  have h := c4_translation_grace_fallback wMsg wEnvNT ⟨"abc-123", "E1", "COMPLETED"⟩
    "lessons/E1/videos/audio.m3u8" wProvNT "vi"
    (by decide) (by decide) (fun m => ⟨rfl, rfl⟩) rfl (by decide) rfl rfl rfl rfl
    (by decide) (by decide) rfl
  exact ⟨h.1, h.2.1, h.2.2.1, h.2.2.2.1⟩

end TranscriptWorker
